import Mathlib

set_option maxHeartbeats 1000000

/-!
Verification development for the YTFlow backend (a Next.js application with two
HTTP handler families: the download handlers in route.js and a companion
download handler variant, and the transcription handlers).

Strings are modelled as lists of characters (`Str`).  External providers
(the media-extraction library, the noembed lookup, the caption fetch, the
transcription service) are modelled as oracle fields of environment records,
each an `Except Str` value carrying either the provider payload or the thrown
error message.  Handler control flow is translated branch for branch from the
JavaScript source; JavaScript truthiness of optional strings and numbers is
modelled with `jsOrStr` and `jsOrNat`.  Floating-point segment times are
represented as abstract natural numbers (milliseconds for caption events);
no claim concerns the numeric value of a timestamp.  URI-escaping of values
interpolated into redirect locations and filenames is elided: claims concern
only which redirect or filename branch is taken.
-/

/-- Strings of the embedded program, as lists of characters. -/
abbrev Str := List Char

/-- Membership test of the JavaScript character class used by both the
validation regex and the id-extraction regex: word characters and hyphen,
that is A-Z, a-z, 0-9, underscore and hyphen. -/
def isIdChar (c : Char) : Bool :=
  c.isAlpha || c.isDigit || c == '_' || c == '-'

/-- Longest leading run of identifier characters, the greedy match of the
final quantifier of either regex. -/
def takeIdRun (s : Str) : Str := s.takeWhile isIdChar

/-- Optional scheme group of the validation regex: (https?://)? offers the
empty string, http:// and https://. -/
def schemeOpts : List Str := [[], "http://".toList, "https://".toList]

/-- Optional www group of the validation regex. -/
def wwwOpts : List Str := [[], "www.".toList]

/-- Host alternatives of the validation regex. -/
def hostOpts : List Str :=
  ["youtube.com/watch?v=".toList, "youtube.com/shorts/".toList,
   "youtube.com/embed/".toList, "youtu.be/".toList]

/-- Test of the anchored validation regex
^(https?://)?(www\.)?(youtube\.com/(watch\?v=|shorts/|embed/)|youtu\.be/)[\w-]{minLen,}
used by the handlers.  Because the regex is anchored at the start and each
alternative of each group begins with a distinct character, a match exists
exactly when one of the 24 literal prefixes is followed by at least `minLen`
characters of the class [\w-]; the test is that existence check. -/
def ytMatchTest (minLen : Nat) (s : Str) : Bool :=
  schemeOpts.any fun sc => wwwOpts.any fun w => hostOpts.any fun h =>
    (sc ++ w ++ h).isPrefixOf s &&
      decide (minLen ≤ (takeIdRun (s.drop (sc ++ w ++ h).length)).length)

/-- The validation test of route.js POST and of the transcribe POST handler,
which require at least 6 identifier characters. -/
def ytRegexTest (s : Str) : Bool := ytMatchTest 6 s

/-- The validation test of the companion download handler variant, which
requires at least 8 identifier characters. -/
def ytRegexTest8 (s : Str) : Bool := ytMatchTest 8 s

/-- Marker alternatives of the id-extraction regex of the transcribe POST
handler: (?:v=|youtu\.be/|shorts/|embed/). -/
def markersEmbed : List Str :=
  ["v=".toList, "youtu.be/".toList, "shorts/".toList, "embed/".toList]

/-- Marker alternatives of the id-extraction regex of noembedFallback in
route.js, which lacks the embed/ alternative: (?:v=|youtu\.be/|shorts/). -/
def markersNoEmbed : List Str :=
  ["v=".toList, "youtu.be/".toList, "shorts/".toList]

/-- Attempt of the extraction regex at one start position: if some marker is a
prefix here and at least 6 identifier characters follow it, the captured group
is the greedy identifier run after the marker.  At any position at most one
marker can match since the markers begin with distinct characters, so the
order of the alternatives is immaterial. -/
def tryMarkerAt : List Str → Str → Option Str
  | [], _ => none
  | m :: ms, s =>
    if m.isPrefixOf s && decide (6 ≤ (takeIdRun (s.drop m.length)).length)
    then some (takeIdRun (s.drop m.length))
    else tryMarkerAt ms s

/-- Unanchored leftmost search of the id-extraction regex: scan start
positions left to right and return the captured identifier of the first
position where the pattern matches, as url.match(regex) and group 1 do. -/
def extractIdWith (markers : List Str) : Str → Option Str
  | [] => none
  | c :: rest =>
    match tryMarkerAt markers (c :: rest) with
    | some r => some r
    | none => extractIdWith markers rest

/-- JavaScript or-default on an optional number: the expression o || d, where
both a missing value and 0 are falsy. -/
def jsOrNat (o : Option Nat) (d : Nat) : Nat :=
  match o with
  | none => d
  | some n => if n = 0 then d else n

/-- JavaScript or-default on an optional string: the expression o || d, where
both a missing value and the empty string are falsy. -/
def jsOrStr (o : Option Str) (d : Str) : Str :=
  match o with
  | none => d
  | some s => if s = [] then d else s

/-- JavaScript or-chain a || b || c on option values, as used by the priority
selections: objects are truthy and undefined is falsy, so the first present
value wins. -/
def jsOr3 {α : Type} (a b : Option α) (c : Option α) : Option α :=
  match a with
  | some v => some v
  | none =>
    match b with
    | some v => some v
    | none => c

/-- One downloadable encoding of a video as reported by the media-extraction
provider. -/
structure MediaVariant where
  itag : Nat
  qualityLabel : Option Str
  container : Str
  hasVideo : Bool
  hasAudio : Bool
  audioBitrate : Option Nat
  contentLength : Option Nat
deriving DecidableEq

/-- Bitrate key of the audio sort: parseInt(f.audioBitrate || 0). -/
def bitrateOf (f : MediaVariant) : Nat := f.audioBitrate.getD 0

/-- Stable descending insertion, placing x before the first element whose key
is strictly smaller and after every earlier element with an equal key. -/
def insertDescBy {α : Type} (key : α → Nat) (x : α) : List α → List α
  | [] => [x]
  | y :: ys => if key y ≤ key x then x :: y :: ys else y :: insertDescBy key x ys

/-- Stable descending sort by a numeric key.  Array.prototype.sort with the
comparator (a, b) => key(b) - key(a) is a stable descending sort, and a stable
sort under a total preorder has a unique result, which this insertion sort
computes. -/
def sortDescBy {α : Type} (key : α → Nat) : List α → List α
  | [] => []
  | x :: xs => insertDescBy key x (sortDescBy key xs)

/-- First element of a list attaining the maximal key, favouring earlier
elements on ties. -/
def firstMaxBy {α : Type} (key : α → Nat) : List α → Option α
  | [] => none
  | x :: xs =>
    match firstMaxBy key xs with
    | none => some x
    | some m => if key m ≤ key x then some x else some m

/-- Modelled from the spec: ytdl.filterFormats(formats, "audioonly") of the
media-extraction library, which is not part of this repository; the spec
describes it as filtering to audio-only variants. -/
def filterAudioOnly (l : List MediaVariant) : List MediaVariant :=
  l.filter fun f => f.hasAudio && !f.hasVideo

/-- Modelled from the spec: ytdl.filterFormats(formats, "videoandaudio") of
the media-extraction library, which is not part of this repository; the spec
describes it as filtering to variants carrying both video and audio. -/
def filterVideoAndAudio (l : List MediaVariant) : List MediaVariant :=
  l.filter fun f => f.hasVideo && f.hasAudio

/-- Audio selection shared by the GET mp3 branch and the transcription
handler: sort the audio-only variants descending by bitrate and take the
first. -/
def selectAudioFormat (formats : List MediaVariant) : Option MediaVariant :=
  (sortDescBy bitrateOf (filterAudioOnly formats)).head?

/-- The quality-tier table of the GET handlers, as an association list. -/
def qualityPairs : List (Str × Str) :=
  [("4K".toList, "2160p".toList), ("2K".toList, "1440p".toList),
   ("1080p".toList, "1080p".toList), ("720p".toList, "720p".toList),
   ("480p".toList, "480p".toList), ("360p".toList, "360p".toList)]

/-- Names of the Object.prototype properties reachable through a bracket
lookup on a plain object literal in V8 (the engine a Next.js deployment
runs on, Annex B accessors included): a lookup with one of these keys
returns the inherited property, which is a truthy non-string (a function,
or Object.prototype itself for the last dunder accessor), so a || default
after the lookup does not apply. -/
def protoKeys : List Str :=
  ["constructor".toList, "hasOwnProperty".toList, "isPrototypeOf".toList,
   "propertyIsEnumerable".toList, "toLocaleString".toList, "toString".toList,
   "valueOf".toList, "__defineGetter__".toList, "__defineSetter__".toList,
   "__lookupGetter__".toList, "__lookupSetter__".toList, "__proto__".toList]

/-- Value of a JavaScript bracket lookup on an object literal when used as a
strict-equality target: either a string, or a truthy non-string value
inherited from Object.prototype (identified by the key that reached it). -/
inductive JsTarget where
  | str (s : Str)
  | protoObj (name : Str)
deriving DecidableEq

/-- The target computation qualityMap[quality] || "1080p" with JavaScript
object-literal semantics: an own property of the literal wins; otherwise a
key naming an Object.prototype property yields the truthy inherited value,
so the || default does not apply; otherwise the lookup is undefined and the
default "1080p" applies. -/
def qualityTarget (q : Str) : JsTarget :=
  match qualityPairs.lookup q with
  | some v => .str v
  | none =>
    if q ∈ protoKeys then .protoObj q
    else .str ("1080p".toList)

/-- Strict equality f.qualityLabel === targetQ: true only when the target is
a string and the label is present and equal to it; an inherited non-string
target matches no label, and a missing label matches nothing. -/
def labelMatches (target : JsTarget) (lbl : Option Str) : Bool :=
  match target, lbl with
  | .str t, some s => s == t
  | _, _ => false

/-- The mapping as the spec describes it, for comparison with the actual
lookup qualityTarget: each vocabulary tier to its canonical label, every
other string to 1080p. -/
def specQualityLabel (q : Str) : Str := (qualityPairs.lookup q).getD ("1080p".toList)

/-- Video selection of the GET handlers: filter to variants with both video
and audio, then first exact target match, else first 720p, else the first
variant in provider order. -/
def selectVideoFormat (quality : Str) (formats : List MediaVariant) : Option MediaVariant :=
  let targetQ := qualityTarget quality
  let fmts := filterVideoAndAudio formats
  jsOr3 (fmts.find? fun f => labelMatches targetQ f.qualityLabel)
    (fmts.find? fun f => f.qualityLabel == some ("720p".toList))
    fmts.head?

/-- A time-bounded span of transcript text.  Caption segment bounds are kept
in milliseconds; whisper segment bounds are the provider-reported numbers. -/
structure Segment where
  start : Nat
  stop : Nat
  text : Str
deriving DecidableEq

/-- The transcription success envelope.  duration and wordCount are present
only on the whisper path; note is present on the caption path. -/
structure TranscriptEnvelope where
  title : Str
  transcript : Option Str
  segments : List Segment
  language : Str
  duration : Option Nat
  wordCount : Option Nat
  source : Str
  note : Option Str
deriving DecidableEq

/-- The metadata success envelope of POST /download. -/
structure VideoEnvelope where
  id : Str
  title : Str
  channel : Option Str
  duration : Option Nat
  views : Option Nat
  thumbnail : Str
  formats : List MediaVariant
  note : Option Str
deriving DecidableEq

/-- An HTTP response of any of the handlers: a JSON error envelope with a
status, one of the two success envelopes, a redirect, or a streamed file. -/
inductive Resp where
  | error (msg : Str) (status : Nat)
  | video (v : VideoEnvelope)
  | transcript (t : TranscriptEnvelope)
  | redirect (location : Str)
  | stream (body : List Nat) (contentType : Str) (filename : Str)
deriving DecidableEq

/-- Provider events observed during one request, used to state reachability
claims about provider invocations. -/
inductive Ev where
  | getInfo
  | download
  | transcribe
  | captions
  | unlink
deriving DecidableEq

def urlRequiredMsg : Str := "URL is required".toList
def urlParamRequiredMsg : Str := "url param required".toList
def invalidUrlMsg : Str := "Invalid YouTube URL".toList
def idExtractMsg : Str := "Could not extract video ID".toList
def noFormatMsg : Str := "No suitable format found".toList
def tooLongMsg : Str := "Video too long (max 30 min for Whisper transcription).".toList
def noCaptionsMsg : Str :=
  "No captions available for this video. Add OPENAI_API_KEY to .env.local for AI transcription of any video.".toList
def captionNote : Str :=
  "Using YouTube auto-captions. Add OPENAI_API_KEY to .env.local for AI-powered Whisper transcription.".toList
def noembedNote : Str := "Install @distube/ytdl-core for full format info.".toList
def part001FailMsg : Str :=
  "Failed to download video. The video may be age-restricted or unavailable.".toList

/-- Error message of the caption-lookup catch handler, wrapping the thrown
provider message. -/
def capErrMsg (e : Str) : Str :=
  "Could not fetch captions: ".toList ++ e ++
    ". Add OPENAI_API_KEY to .env.local for full AI transcription.".toList

/-- Redirect location of the streaming fallback; URI-escaping of the embedded
link is elided. -/
def cobaltUrl (u : Str) : Str := "https://cobalt.tools/#u=".toList ++ u

/-- Constructed thumbnail fallback URL. -/
def hqThumb (vid : Str) : Str :=
  "https://img.youtube.com/vi/".toList ++ vid ++ "/hqdefault.jpg".toList

/-- Whitespace for the purposes of String.prototype.trim, restricted to the
ASCII whitespace characters that can occur in the modelled strings. -/
def isJsWs (c : Char) : Bool := c == ' ' || c == '\t' || c == '\n' || c == '\r'

/-- String.prototype.trim: drop whitespace from both ends. -/
def trimStr (s : Str) : Str := ((s.dropWhile isJsWs).reverse.dropWhile isJsWs).reverse

/-- The global replacement of newlines by spaces applied to caption text. -/
def stripNl (s : Str) : Str := s.map fun c => if c == '\n' then ' ' else c

/-- One event of the json3 caption payload: optional start time, optional
duration, and an optional array of segments each carrying optional utf8
text. -/
structure CapEvent where
  tStartMs : Option Nat
  dDurationMs : Option Nat
  segs : Option (List (Option Str))
deriving DecidableEq

/-- One caption track of the player response. -/
structure CaptionTrack where
  languageCode : Str
  baseUrl : Str
deriving DecidableEq

/-- The caption-relevant part of the provider info: title and the optional
caption track list reached through the optional-chaining path
player_response?.captions?.playerCaptionsTracklistRenderer?.captionTracks. -/
structure CapInfo where
  title : Str
  captionTracks : Option (List CaptionTrack)
deriving DecidableEq

/-- Environment of one caption-lookup execution: the dynamic import of the
media-extraction library, its getInfo call, and the per-track json3 fetch,
each either a payload or a thrown message. -/
structure CaptionEnv where
  importYtdl : Except Str Unit
  getInfo : Except Str CapInfo
  fetchJson : Str → Except Str (Option (List CapEvent))

/-- Text of one caption event: join the utf8 pieces (missing pieces as the
empty string), replace newlines by spaces, trim. -/
def segTextOf (e : CapEvent) : Str :=
  trimStr (stripNl (((e.segs.getD []).map (fun o => o.getD [])).flatten))

/-- Segment record built from one caption event; times in milliseconds, with
the JavaScript falsy defaults (e.tStartMs || 0) and (e.dDurationMs || 2000),
under which a reported duration of 0 also falls back to 2000. -/
def capSegment (e : CapEvent) : Segment :=
  { start := jsOrNat e.tStartMs 0
    stop := jsOrNat e.tStartMs 0 + jsOrNat e.dDurationMs 2000
    text := segTextOf e }

/-- Caption event processing: keep events that carry a segs array, build the
segment records, and keep only those whose text has length above 1. -/
def processEvents (evs : List CapEvent) : List Segment :=
  ((evs.filter fun e => e.segs.isSome).map capSegment).filter
    fun s => decide (1 < s.text.length)

/-- Caption track preference: first track with language code exactly en, else
first whose language code starts with en, else the first track. -/
def selectTrack (ts : List CaptionTrack) : Option CaptionTrack :=
  jsOr3 (ts.find? fun t => t.languageCode == "en".toList)
    (ts.find? fun t => ("en".toList).isPrefixOf t.languageCode)
    ts.head?

/-- The caption-lookup tier.  Every throw inside its try block (the dynamic
import, getInfo, the fetch) is caught by its own catch handler and surfaced
as a 500 error envelope wrapping the thrown message. -/
def captionFallback (env : CaptionEnv) : Resp :=
  match env.importYtdl with
  | .error e => .error (capErrMsg e) 500
  | .ok _ =>
    match env.getInfo with
    | .error e => .error (capErrMsg e) 500
    | .ok info =>
      match info.captionTracks with
      | none => .error noCaptionsMsg 404
      | some ts =>
        match selectTrack ts with
        | none => .error noCaptionsMsg 404
        | some track =>
          match env.fetchJson (track.baseUrl ++ "&fmt=json3".toList) with
          | .error e => .error (capErrMsg e) 500
          | .ok events =>
            let segments := processEvents (events.getD [])
            if 0 < segments.length then
              .transcript
                { title := info.title
                  transcript := some (List.intercalate (" ".toList) (segments.map Segment.text))
                  segments := segments
                  language := track.languageCode
                  duration := none
                  wordCount := none
                  source := "youtube-captions".toList
                  note := some captionNote }
            else .error noCaptionsMsg 404

/-- One whisper segment as reported by the transcription provider; times are
the provider-reported numbers. -/
structure WhisperSeg where
  start : Nat
  stop : Nat
  text : Str
deriving DecidableEq

/-- The transcription provider payload (verbose_json). -/
structure Transcription where
  text : Option Str
  segments : Option (List WhisperSeg)
  language : Option Str
  duration : Option Nat
deriving DecidableEq

/-- Video details used by the whisper path: title, optional length in
seconds, and the format list. -/
structure WhisperInfo where
  title : Str
  lengthSeconds : Option Nat
  formats : List MediaVariant
deriving DecidableEq

/-- Environment of one credentialed transcription execution.  unlinkOk tells
whether the best-effort temp-file deletion of the finally block succeeds. -/
structure WhisperEnv where
  importYtdl : Except Str Unit
  getInfo : Except Str WhisperInfo
  downloadAudio : Except Str (List Nat)
  openaiCreate : Except Str Transcription
  unlinkOk : Bool
  captionEnv : CaptionEnv

/-- JavaScript single-space split, as used by the wordCount computation
text.split(" "): fields between single space characters, empty fields
included, so the result always has one more field than there are spaces. -/
def splitOnSpaceAux : Str → Str → List Str
  | [], acc => [acc.reverse]
  | c :: cs, acc =>
    if c == ' ' then acc.reverse :: splitOnSpaceAux cs []
    else splitOnSpaceAux cs (c :: acc)

/-- Entry point of the single-space split. -/
def splitOnSpace (s : Str) : List Str := splitOnSpaceAux s []

/-- The wordCount computation transcription.text?.split(" ").length || 0: the
number of single-space fields when text is present, 0 when it is missing. -/
def jsWordCount (text : Option Str) : Nat :=
  match text with
  | none => 0
  | some s => (splitOnSpace s).length

/-- Spec-side auxiliary for comparison: split at every whitespace character. -/
def splitWsAux : Str → Str → List Str
  | [], acc => [acc.reverse]
  | c :: cs, acc =>
    if isJsWs c then acc.reverse :: splitWsAux cs []
    else splitWsAux cs (c :: acc)

/-- Spec-side word count: the number of whitespace-delimited tokens, that is
maximal nonempty runs of non-whitespace characters. -/
def wsTokenCount (s : Str) : Nat :=
  ((splitWsAux s []).filter (fun t => !t.isEmpty)).length

/-- The whisper success envelope. -/
def whisperEnvelope (title : Str) (language : Str) (duration : Nat)
    (t : Transcription) : TranscriptEnvelope :=
  { title := title
    transcript := t.text
    segments := (t.segments.getD []).map fun s =>
      { start := s.start, stop := s.stop, text := trimStr s.text }
    language := jsOrStr t.language language
    duration := some (jsOrNat t.duration duration)
    wordCount := some (jsWordCount t.text)
    source := "whisper".toList
    note := none }

/-- The try block of whisperTranscribe: outcome (a response, or a message
thrown out of the block), whether the temp audio file was written, and the
trace of provider events. -/
def whisperBody (env : WhisperEnv) (language : Str) :
    Except Str Resp × Bool × List Ev :=
  match env.importYtdl with
  | .error _ => (.ok (captionFallback env.captionEnv), false, [.captions])
  | .ok _ =>
    match env.getInfo with
    | .error e => (.error e, false, [.getInfo])
    | .ok info =>
      let duration := info.lengthSeconds.getD 0
      if 1800 < duration then
        (.ok (.error tooLongMsg 400), false, [.getInfo])
      else
        match selectAudioFormat info.formats with
        | none => (.ok (captionFallback env.captionEnv), false, [.getInfo, .captions])
        | some _ =>
          match env.downloadAudio with
          | .error e => (.error e, false, [.getInfo, .download])
          | .ok _ =>
            match env.openaiCreate with
            | .error e => (.error e, true, [.getInfo, .download, .transcribe])
            | .ok t =>
              (.ok (.transcript (whisperEnvelope info.title language duration t)), true,
                [.getInfo, .download, .transcribe])

deriving instance DecidableEq for Except

/-- Result of whisperTranscribe after the finally block: the outcome of the
try block (unchanged, because the unlink failure is swallowed by .catch),
whether the temp file is left behind, and the trace with the unconditional
unlink attempt appended. -/
structure WhisperResult where
  outcome : Except Str Resp
  fileLeft : Bool
  trace : List Ev
deriving DecidableEq

/-- whisperTranscribe: run the try block, then the finally block, which
always attempts the unlink and swallows its failure. -/
def whisperTranscribe (env : WhisperEnv) (language : Str) : WhisperResult :=
  let b := whisperBody env language
  { outcome := b.1
    fileLeft := if env.unlinkOk then false else b.2.1
    trace := b.2.2 ++ [Ev.unlink] }

/-- Environment of one POST /transcribe request: whether the transcription
credential is configured, and the whisper-path environment (whose caption
environment also serves the uncredentialed path). -/
structure TransEnv where
  hasKey : Bool
  whisper : WhisperEnv

/-- The POST /transcribe handler. -/
def transcribePost (env : TransEnv) (url : Option Str) (language : Option Str) : Resp :=
  let lang := jsOrStr language ("auto".toList)
  match url with
  | none => .error urlRequiredMsg 400
  | some u =>
    if u = [] then .error urlRequiredMsg 400
    else if ytRegexTest u = false then .error invalidUrlMsg 400
    else
      match extractIdWith markersEmbed u with
      | none => .error idExtractMsg 400
      | some _ =>
        if env.hasKey then
          match (whisperTranscribe env.whisper lang).outcome with
          | .ok r => r
          | .error e => .error e 500
        else captionFallback env.whisper.captionEnv

/-- The noembed lookup payload. -/
structure NoembedData where
  title : Option Str
  authorName : Option Str
deriving DecidableEq

/-- Video details of the primary provider as used by POST /download. -/
structure VideoDetails where
  videoId : Str
  title : Str
  channel : Option Str
  lengthSeconds : Option Nat
  viewCount : Option Nat
  thumbnails : List Str
deriving DecidableEq

/-- The primary provider info for the download handlers. -/
structure DlInfo where
  videoDetails : VideoDetails
  formats : List MediaVariant
deriving DecidableEq

/-- Environment of one POST /download request. -/
structure PostEnv where
  ytdlAvailable : Bool
  getInfo : Except Str DlInfo
  noembedFetch : Except Str NoembedData

/-- The noembed fallback tier of POST /download.  Its extraction regex lacks
the embed/ marker; when extraction fails the thrown message is caught by its
own catch handler and surfaced as a 500 error envelope. -/
def noembedFallback (env : PostEnv) (u : Str) : Resp :=
  match extractIdWith markersNoEmbed u with
  | none => .error idExtractMsg 500
  | some vid =>
    match env.noembedFetch with
    | .error e => .error e 500
    | .ok d =>
      .video
        { id := vid
          title := jsOrStr d.title ("YouTube Video".toList)
          channel := some (jsOrStr d.authorName ("Unknown".toList))
          duration := none
          views := none
          thumbnail := hqThumb vid
          formats := []
          note := some noembedNote }

/-- The POST /download handler of route.js. -/
def downloadPost (env : PostEnv) (url : Option Str) : Resp :=
  match url with
  | none => .error urlRequiredMsg 400
  | some u =>
    if u = [] then .error urlRequiredMsg 400
    else if ytRegexTest u = false then .error invalidUrlMsg 400
    else if env.ytdlAvailable = false then noembedFallback env u
    else
      match env.getInfo with
      | .error e => .error e 500
      | .ok info =>
        let d := info.videoDetails
        .video
          { id := d.videoId
            title := d.title
            channel := d.channel
            duration := d.lengthSeconds
            views := d.viewCount
            thumbnail := jsOrStr d.thumbnails.getLast? (hqThumb d.videoId)
            formats := (filterVideoAndAudio info.formats).take 10
            note := none }

/-- Environment of one GET /download request. -/
structure GetEnv where
  ytdlAvailable : Bool
  getInfo : Except Str DlInfo
  streamBytes : Except Str (List Nat)

/-- The Content-Type table of the GET handlers.  The lookup
mimeMap[format] || "video/mp4" has the same Object.prototype inheritance as
the quality lookup; that case is elided here because no claim concerns the
Content-Type value of a streamed response. -/
def mimePairs : List (Str × Str) :=
  [("mp4".toList, "video/mp4".toList), ("webm".toList, "video/webm".toList),
   ("mp3".toList, "audio/mpeg".toList)]

/-- Characters kept by the title sanitization [^\w\s-] removal. -/
def isTitleChar (c : Char) : Bool :=
  c.isAlpha || c.isDigit || c == '_' || isJsWs c || c == '-'

/-- Title sanitization: strip characters outside word, whitespace and
hyphen, then trim. -/
def sanitizeTitle (t : Str) : Str := trimStr (t.filter isTitleChar)

/-- The GET /download streaming handler of route.js, paired with its trace of
provider events.  It performs no URL-shape validation; every throw of its try
block leads to the cobalt.tools redirect. -/
def routeGet (env : GetEnv) (url : Option Str) (format quality : Option Str) :
    Resp × List Ev :=
  let fmt := jsOrStr format ("mp4".toList)
  let qual := jsOrStr quality ("1080p".toList)
  match url with
  | none => (.error urlParamRequiredMsg 400, [])
  | some u =>
    if u = [] then (.error urlParamRequiredMsg 400, [])
    else if env.ytdlAvailable = false then (.redirect (cobaltUrl u), [])
    else
      match env.getInfo with
      | .error _ => (.redirect (cobaltUrl u), [.getInfo])
      | .ok info =>
        let title := sanitizeTitle info.videoDetails.title
        let chosen :=
          if fmt = "mp3".toList then selectAudioFormat info.formats
          else selectVideoFormat qual info.formats
        match chosen with
        | none => (.error noFormatMsg 404, [.getInfo])
        | some _ =>
          match env.streamBytes with
          | .error _ => (.redirect (cobaltUrl u), [.getInfo, .download])
          | .ok bytes =>
            (.stream bytes ((mimePairs.lookup fmt).getD ("video/mp4".toList))
              (title.take 60 ++ ".".toList ++ fmt), [.getInfo, .download])

/-- The companion GET handler variant, which validates the URL with the
8-character pattern before the try block and reports provider failures as a
500 error envelope instead of redirecting. -/
def part001Get (env : GetEnv) (url : Option Str) (format quality : Option Str) :
    Resp × List Ev :=
  let fmt := jsOrStr format ("mp4".toList)
  let qual := jsOrStr quality ("1080p".toList)
  match url with
  | none => (.error urlRequiredMsg 400, [])
  | some u =>
    if u = [] then (.error urlRequiredMsg 400, [])
    else if ytRegexTest8 u = false then (.error invalidUrlMsg 400, [])
    else if env.ytdlAvailable = false then (.error part001FailMsg 500, [])
    else
      match env.getInfo with
      | .error _ => (.error part001FailMsg 500, [.getInfo])
      | .ok info =>
        let title := sanitizeTitle info.videoDetails.title
        let chosen :=
          if fmt = "mp3".toList then selectAudioFormat info.formats
          else selectVideoFormat qual info.formats
        match chosen with
        | none => (.error noFormatMsg 404, [.getInfo])
        | some _ =>
          match env.streamBytes with
          | .error _ => (.error part001FailMsg 500, [.getInfo, .download])
          | .ok bytes =>
            (.stream bytes ((mimePairs.lookup fmt).getD ("video/mp4".toList))
              (title.take 60 ++ ".".toList ++ fmt), [.getInfo, .download])

/-- The first element of a list satisfying a predicate, characterized by an
append decomposition: everything before it fails the predicate. -/
def FirstSuch {α : Type} (p : α → Bool) (l : List α) (v : α) : Prop :=
  ∃ l1 l2, l = l1 ++ v :: l2 ∧ p v = true ∧ ∀ w ∈ l1, p w = false

/-- Projection of the whisper word count out of a transcription outcome. -/
def respWordCount (r : Except Str Resp) : Option Nat :=
  match r with
  | Except.ok (Resp.transcript e) => e.wordCount
  | _ => none

/-- A caption environment with the library available and no caption tracks. -/
def demoCapEnv : CaptionEnv :=
  { importYtdl := Except.ok ()
    getInfo := Except.ok { title := ("Demo".toList), captionTracks := none }
    fetchJson := fun _ => Except.ok none }

/-- A whisper environment whose provider info call fails. -/
def demoWhisperEnvBase : WhisperEnv :=
  { importYtdl := Except.ok ()
    getInfo := Except.error ("network error".toList)
    downloadAudio := Except.ok []
    openaiCreate := Except.error ("no transcription".toList)
    unlinkOk := true
    captionEnv := demoCapEnv }

/-- Audio-only variant at 50 kbps. -/
def demoA50 : MediaVariant :=
  { itag := 249, qualityLabel := none, container := ("webm".toList),
    hasVideo := false, hasAudio := true, audioBitrate := some 50,
    contentLength := none }

/-- Audio-only variant at 128 kbps, earliest of the two equal-bitrate
variants. -/
def demoA128 : MediaVariant :=
  { itag := 140, qualityLabel := none, container := ("mp4".toList),
    hasVideo := false, hasAudio := true, audioBitrate := some 128,
    contentLength := none }

/-- Audio-only variant at 128 kbps, listed after demoA128. -/
def demoA128b : MediaVariant :=
  { itag := 141, qualityLabel := none, container := ("mp4".toList),
    hasVideo := false, hasAudio := true, audioBitrate := some 128,
    contentLength := none }

/-- Muxed 720p variant. -/
def demoV720 : MediaVariant :=
  { itag := 22, qualityLabel := some ("720p".toList), container := ("mp4".toList),
    hasVideo := true, hasAudio := true, audioBitrate := some 96,
    contentLength := some 1000 }

/-- Video-only 1080p variant, filtered out of muxed selection. -/
def demoV1080NoAudio : MediaVariant :=
  { itag := 137, qualityLabel := some ("1080p".toList), container := ("mp4".toList),
    hasVideo := true, hasAudio := false, audioBitrate := none,
    contentLength := none }

/-- Demo candidate list. -/
def demoFmts : List MediaVariant := [demoA50, demoA128, demoA128b, demoV1080NoAudio, demoV720]

/-- Muxed 1080p variant. -/
def demoV1080Muxed : MediaVariant :=
  { itag := 299, qualityLabel := some ("1080p".toList), container := ("mp4".toList),
    hasVideo := true, hasAudio := true, audioBitrate := some 128,
    contentLength := none }

/-- Candidate list for the prototype-key counterexample: a muxed 720p
variant followed by a muxed 1080p variant. -/
def c5ProtoFmts : List MediaVariant := [demoV720, demoV1080Muxed]

/-- A download environment with a failing provider, for the GET handler
witnesses. -/
def c10Env : GetEnv :=
  { ytdlAvailable := true
    getInfo := Except.error ("boom".toList)
    streamBytes := Except.error ("stream".toList) }

/-- A download environment whose provider reports only a video-only variant,
so the muxed filter is empty. -/
def demoGetEnvNoMuxed : GetEnv :=
  { ytdlAvailable := true
    getInfo := Except.ok
      { videoDetails :=
          { videoId := ("abc123xyz".toList), title := ("Test Video".toList),
            channel := none, lengthSeconds := some 10, viewCount := none,
            thumbnails := [] }
        formats := [demoV1080NoAudio] }
    streamBytes := Except.error ("stream".toList) }

/-- A caption environment whose library import fails, the capability
condition inside the caption tier. -/
def c1CapEnv : CaptionEnv :=
  { importYtdl := Except.error ("Cannot find module".toList)
    getInfo := Except.ok { title := [], captionTracks := none }
    fetchJson := fun _ => Except.ok none }

/-- A POST environment with the library unavailable. -/
def c1PostEnv : PostEnv :=
  { ytdlAvailable := false
    getInfo := Except.error ("unused".toList)
    noembedFetch := Except.ok { title := none, authorName := none } }

/-- A whisper environment whose library import fails and whose caption tier
fails the same import. -/
def c1WhisperEnv : WhisperEnv :=
  { demoWhisperEnvBase with
      importYtdl := Except.error ("Cannot find module".toList)
      captionEnv := c1CapEnv }

/-- Provider info with duration over the ceiling. -/
def c3LongInfo : WhisperInfo :=
  { title := ("Long".toList), lengthSeconds := some 1801, formats := [demoA128] }

/-- Whisper environment reporting duration 1801. -/
def c3LongEnv : WhisperEnv :=
  { demoWhisperEnvBase with getInfo := Except.ok c3LongInfo }

/-- Provider info with duration exactly at the ceiling and no audio variant,
so the edge case proceeds past the guard into the caption tier. -/
def c3EdgeInfo : WhisperInfo :=
  { title := ("Edge".toList), lengthSeconds := some 1800, formats := [] }

/-- Whisper environment reporting duration 1800. -/
def c3EdgeEnv : WhisperEnv :=
  { demoWhisperEnvBase with getInfo := Except.ok c3EdgeInfo }

/-- An English caption track. -/
def c7Track : CaptionTrack :=
  { languageCode := ("en".toList), baseUrl := ("http://captions".toList) }

/-- First caption event. -/
def c7Event1 : CapEvent :=
  { tStartMs := some 0, dDurationMs := some 1000, segs := some [some ("hello".toList)] }

/-- Second caption event. -/
def c7Event2 : CapEvent :=
  { tStartMs := some 1000, dDurationMs := some 1000, segs := some [some ("world".toList)] }

/-- A caption environment returning one English track with two events. -/
def c7CapEnv : CaptionEnv :=
  { importYtdl := Except.ok ()
    getInfo := Except.ok { title := ("T".toList), captionTracks := some [c7Track] }
    fetchJson := fun _ => Except.ok (some [c7Event1, c7Event2]) }

/-- Transcription payload whose text contains a double space. -/
def c9Trans : Transcription :=
  { text := some ("a  b".toList), segments := some [], language := some ("en".toList),
    duration := some 4 }

/-- Whisper environment reaching the success envelope with c9Trans. -/
def c9Env : WhisperEnv :=
  { importYtdl := Except.ok ()
    getInfo := Except.ok
      { title := ("T".toList), lengthSeconds := some 100, formats := [demoA128] }
    downloadAudio := Except.ok []
    openaiCreate := Except.ok c9Trans
    unlinkOk := true
    captionEnv := demoCapEnv }

/-- Transcription payload with a single-space text. -/
def c9TransB : Transcription :=
  { text := some ("x y".toList), segments := some [], language := some ("en".toList),
    duration := some 2 }

/-- Whisper environment reaching the success envelope with c9TransB. -/
def c9EnvB : WhisperEnv :=
  { c9Env with openaiCreate := Except.ok c9TransB }

/-- Characterization of the boolean prefix test on character lists. -/
theorem isPrefixOf_iff (p s : Str) : p.isPrefixOf s = true ↔ ∃ t, s = p ++ t := by
  induction p generalizing s with
  | nil =>
    simp [List.isPrefixOf]
  | cons a as ih =>
    cases s with
    | nil =>
      simp [List.isPrefixOf]
    | cons b bs =>
      simp only [List.isPrefixOf, Bool.and_eq_true, beq_iff_eq, ih, List.cons_append]
      constructor
      · rintro ⟨rfl, t, rfl⟩
        exact ⟨t, rfl⟩
      · rintro ⟨t, h⟩
        cases h
        exact ⟨rfl, t, rfl⟩

/-- Every successful attempt of the extraction pattern at a position captures
at least 6 characters. -/
theorem tryMarkerAt_length (ms : List Str) (s : Str) (r : Str)
    (h : tryMarkerAt ms s = some r) : 6 ≤ r.length := by
  induction ms with
  | nil => simp [tryMarkerAt] at h
  | cons m ms ih =>
    by_cases hc : (m.isPrefixOf s && decide (6 ≤ (takeIdRun (s.drop m.length)).length)) = true
    · rw [tryMarkerAt, if_pos hc] at h
      cases h
      exact of_decide_eq_true (Bool.and_elim_right hc)
    · rw [tryMarkerAt, if_neg hc] at h
      exact ih h

/-- If some admissible marker sits at the current position with at least 6
identifier characters after it, the attempt at this position succeeds. -/
theorem tryMarkerAt_isSome (ms : List Str) (m t : Str) (hm : m ∈ ms)
    (hrun : 6 ≤ (takeIdRun t).length) : (tryMarkerAt ms (m ++ t)).isSome = true := by
  induction ms with
  | nil => cases hm
  | cons m' ms ih =>
    by_cases hc : (m'.isPrefixOf (m ++ t) &&
        decide (6 ≤ (takeIdRun ((m ++ t).drop m'.length)).length)) = true
    · rw [tryMarkerAt, if_pos hc]
      rfl
    · rw [tryMarkerAt, if_neg hc]
      rcases List.mem_cons.mp hm with rfl | hm'
      · exfalso
        apply hc
        have hpre : m.isPrefixOf (m ++ t) = true := (isPrefixOf_iff m (m ++ t)).mpr ⟨t, rfl⟩
        rw [hpre, List.drop_left]
        simpa using hrun
      · exact ih hm'

/-- Scanning reaches any position where the attempt succeeds, provided no
marker is the empty string. -/
theorem extractIdWith_isSome (ms : List Str) (hne : ∀ m ∈ ms, m ≠ [])
    (pre suf : Str) (h : (tryMarkerAt ms suf).isSome = true) :
    (extractIdWith ms (pre ++ suf)).isSome = true := by
  induction pre with
  | nil =>
    cases suf with
    | nil =>
      exfalso
      have : tryMarkerAt ms ([] : Str) = none := by
        clear h
        induction ms with
        | nil => rfl
        | cons m' ms ih =>
          have hm' : m' ≠ [] := hne m' (List.mem_cons_self m' ms)
          have hpre : m'.isPrefixOf ([] : Str) = false := by
            cases m' with
            | nil => exact absurd rfl hm'
            | cons a as => rfl
          rw [tryMarkerAt, hpre]
          simpa using ih (fun m hm => hne m (List.mem_cons_of_mem m' hm))
      rw [this] at h
      simp at h
    | cons c rest =>
      rw [List.nil_append] at *
      rw [extractIdWith]
      cases htry : tryMarkerAt ms (c :: rest) with
      | some r => rfl
      | none =>
        rw [htry] at h
        simp at h
  | cons c pre ih =>
    rw [List.cons_append, extractIdWith]
    cases htry : tryMarkerAt ms (c :: (pre ++ suf)) with
    | some r => rfl
    | none => exact ih

/-- Every extracted identifier has at least 6 characters. -/
theorem extractIdWith_length (ms : List Str) (s : Str) (r : Str)
    (h : extractIdWith ms s = some r) : 6 ≤ r.length := by
  induction s with
  | nil => simp [extractIdWith] at h
  | cons c rest ih =>
    rw [extractIdWith] at h
    cases htry : tryMarkerAt ms (c :: rest) with
    | some r' =>
      rw [htry] at h
      cases h
      exact tryMarkerAt_length _ _ _ htry
    | none =>
      rw [htry] at h
      exact ih h

/-- Each host alternative of the validation regex ends with a marker of the
embed-aware extraction regex. -/
theorem host_has_marker (h : Str) (hh : h ∈ hostOpts) :
    ∃ preh m, m ∈ markersEmbed ∧ h = preh ++ m := by
  simp only [hostOpts, List.mem_cons, List.not_mem_nil, or_false] at hh
  rcases hh with rfl | rfl | rfl | rfl
  · exact ⟨"youtube.com/watch?".toList, "v=".toList, by simp [markersEmbed], by decide⟩
  · exact ⟨"youtube.com/".toList, "shorts/".toList, by simp [markersEmbed], by decide⟩
  · exact ⟨"youtube.com/".toList, "embed/".toList, by simp [markersEmbed], by decide⟩
  · exact ⟨[], "youtu.be/".toList, by simp [markersEmbed], by decide⟩

/-- A string accepted by the validation regex always yields an identifier of
length at least 6 under the embed-aware extraction regex. -/
theorem extract_of_valid (u : Str) (hv : ytRegexTest u = true) :
    ∃ id, extractIdWith markersEmbed u = some id ∧ 6 ≤ id.length := by
  simp only [ytRegexTest, ytMatchTest, List.any_eq_true, Bool.and_eq_true,
    decide_eq_true_eq] at hv
  obtain ⟨sc, _, w, _, h, hh, hpre, hrun⟩ := hv
  obtain ⟨t, rfl⟩ := (isPrefixOf_iff _ _).mp hpre
  rw [List.drop_left] at hrun
  obtain ⟨preh, m, hm, rfl⟩ := host_has_marker h hh
  have hne : ∀ m' ∈ markersEmbed, m' ≠ [] := by decide
  have hsome : (extractIdWith markersEmbed ((sc ++ w ++ (preh ++ m)) ++ t)).isSome = true := by
    have hassoc : (sc ++ w ++ (preh ++ m)) ++ t = (sc ++ w ++ preh) ++ (m ++ t) := by
      simp [List.append_assoc]
    rw [hassoc]
    exact extractIdWith_isSome markersEmbed hne (sc ++ w ++ preh) (m ++ t)
      (tryMarkerAt_isSome markersEmbed m t hm hrun)
  cases hex : extractIdWith markersEmbed ((sc ++ w ++ (preh ++ m)) ++ t) with
  | none => rw [hex] at hsome; simp at hsome
  | some id => exact ⟨id, rfl, extractIdWith_length _ _ _ hex⟩

/-- find? returns the first element satisfying the predicate. -/
theorem find?_first {α : Type} (p : α → Bool) (l : List α) (v : α)
    (h : l.find? p = some v) : FirstSuch p l v := by
  induction l with
  | nil => simp [List.find?] at h
  | cons x xs ih =>
    cases hp : p x with
    | true =>
      rw [List.find?_cons_of_pos _ hp] at h
      cases h
      exact ⟨[], xs, rfl, hp, by simp⟩
    | false =>
      rw [List.find?_cons_of_neg _ (by simp [hp])] at h
      obtain ⟨l1, l2, rfl, hv, hbefore⟩ := ih h
      refine ⟨x :: l1, l2, rfl, hv, ?_⟩
      intro w hw
      rcases List.mem_cons.mp hw with rfl | hw'
      · exact hp
      · exact hbefore w hw'

/-- A failed find? means every element fails the predicate. -/
theorem find?_none {α : Type} (p : α → Bool) (l : List α)
    (h : l.find? p = none) : ∀ w ∈ l, p w = false := by
  intro w hw
  have := List.find?_eq_none.mp h w hw
  simpa using this

/-- Stable descending insertion never yields the empty list. -/
theorem insertDescBy_ne_nil {α : Type} (key : α → Nat) (x : α) (l : List α) :
    insertDescBy key x l ≠ [] := by
  cases l with
  | nil => simp [insertDescBy]
  | cons y ys =>
    rw [insertDescBy]
    split <;> simp

/-- The stable descending sort is empty exactly on the empty list. -/
theorem sortDescBy_eq_nil_iff {α : Type} (key : α → Nat) (l : List α) :
    sortDescBy key l = [] ↔ l = [] := by
  cases l with
  | nil => simp [sortDescBy]
  | cons x xs =>
    simp only [sortDescBy]
    constructor
    · intro h
      exact absurd h (insertDescBy_ne_nil key x (sortDescBy key xs))
    · intro h
      cases h

/-- firstMaxBy is none exactly on the empty list. -/
theorem firstMaxBy_eq_none_iff {α : Type} (key : α → Nat) (l : List α) :
    firstMaxBy key l = none ↔ l = [] := by
  cases l with
  | nil => simp [firstMaxBy]
  | cons x xs =>
    simp only [firstMaxBy]
    constructor
    · intro h
      cases hm : firstMaxBy key xs with
      | none => rw [hm] at h; cases h
      | some m =>
        rw [hm] at h
        by_cases hk : key m ≤ key x <;> simp [hk] at h
    · intro h
      cases h

/-- The head of the stable descending sort is the first element attaining the
maximal key. -/
theorem head?_sortDescBy {α : Type} (key : α → Nat) (l : List α) :
    (sortDescBy key l).head? = firstMaxBy key l := by
  induction l with
  | nil => rfl
  | cons x xs ih =>
    rw [sortDescBy]
    cases hs : sortDescBy key xs with
    | nil =>
      have hxs : xs = [] := (sortDescBy_eq_nil_iff key xs).mp hs
      subst hxs
      rfl
    | cons y ys =>
      rw [hs] at ih
      rw [firstMaxBy, ← ih]
      simp only [List.head?]
      rw [insertDescBy]
      by_cases hk : key y ≤ key x <;> simp [hk]

/-- Decomposition of the first maximal element: it is attained in the list,
everything before it has a strictly smaller key, and nothing in the list has
a larger key. -/
theorem firstMaxBy_spec {α : Type} (key : α → Nat) (l : List α) (v : α)
    (h : firstMaxBy key l = some v) :
    (∃ l1 l2, l = l1 ++ v :: l2 ∧ ∀ w ∈ l1, key w < key v) ∧
      ∀ w ∈ l, key w ≤ key v := by
  induction l generalizing v with
  | nil => simp [firstMaxBy] at h
  | cons x xs ih =>
    rw [firstMaxBy] at h
    cases hm : firstMaxBy key xs with
    | none =>
      rw [hm] at h
      cases h
      have hxs : xs = [] := (firstMaxBy_eq_none_iff key xs).mp hm
      subst hxs
      exact ⟨⟨[], [], rfl, by simp⟩, by simp⟩
    | some m =>
      rw [hm] at h
      have h' : (if key m ≤ key x then some x else some m) = some v := h
      obtain ⟨⟨l1, l2, rfl, hstrict⟩, hmax⟩ := ih m hm
      by_cases hk : key m ≤ key x
      · rw [if_pos hk] at h'
        cases h'
        refine ⟨⟨[], l1 ++ m :: l2, rfl, by simp⟩, ?_⟩
        intro w hw
        rcases List.mem_cons.mp hw with rfl | hw'
        · exact le_refl _
        · exact le_trans (hmax w hw') hk
      · rw [if_neg hk] at h'
        cases h'
        push_neg at hk
        refine ⟨⟨x :: l1, l2, rfl, ?_⟩, ?_⟩
        · intro w hw
          rcases List.mem_cons.mp hw with rfl | hw'
          · exact hk
          · exact hstrict w hw'
        · intro w hw
          rcases List.mem_cons.mp hw with rfl | hw'
          · exact le_of_lt hk
          · exact hmax w hw'

/-- An association-list lookup with no matching key yields none. -/
theorem lookup_eq_none_of_not_mem {α β : Type} [BEq α] [LawfulBEq α]
    (l : List (α × β)) (q : α) (h : ∀ p ∈ l, q ≠ p.1) : l.lookup q = none := by
  induction l with
  | nil => rfl
  | cons kv rest ih =>
    have hne : q ≠ kv.1 := h kv (List.mem_cons_self kv rest)
    have : (q == kv.1) = false := beq_eq_false_iff_ne.mpr hne
    simp only [List.lookup, this]
    exact ih fun p hp => h p (List.mem_cons_of_mem kv hp)

/-- The single-space split has one more field than the string has spaces. -/
theorem splitOnSpaceAux_length (s : Str) (acc : Str) :
    (splitOnSpaceAux s acc).length = s.count ' ' + 1 := by
  induction s generalizing acc with
  | nil => simp [splitOnSpaceAux, List.count_nil]
  | cons c cs ih =>
    by_cases hc : c = ' '
    · subst hc
      rw [splitOnSpaceAux, if_pos (by simp)]
      simp [List.count_cons, ih]
    · rw [splitOnSpaceAux, if_neg (by simpa using hc)]
      rw [ih]
      simp [List.count_cons, hc]

/-- Length form of the wordCount computation: one more than the number of
space characters when text is present, 0 otherwise. -/
theorem jsWordCount_eq (text : Option Str) :
    jsWordCount text = text.elim 0 (fun s => s.count ' ' + 1) := by
  cases text with
  | none => rfl
  | some s => simp [jsWordCount, splitOnSpace, splitOnSpaceAux_length, Option.elim]

/-- The caption-lookup tier never returns a 400 error envelope: its error
statuses are 500 and 404. -/
theorem captionFallback_ne_400 (env : CaptionEnv) (m : Str) :
    captionFallback env ≠ Resp.error m 400 := by
  rw [captionFallback]
  split
  · simp
  · split
    · simp
    · split
      · simp
      · split
        · simp
        · split
          · simp
          · dsimp only
            split <;> simp

/-- head? is none exactly on the empty list. -/
theorem head?_eq_none_iff {α : Type} (l : List α) : l.head? = none ↔ l = [] := by
  cases l <;> simp

/-- The or-chain is none exactly when all three components are. -/
theorem jsOr3_eq_none_iff {α : Type} (a b c : Option α) :
    jsOr3 a b c = none ↔ a = none ∧ b = none ∧ c = none := by
  cases a <;> cases b <;> cases c <;> simp [jsOr3]

/-- Case split of a successful or-chain: the first present component wins. -/
theorem jsOr3_eq_some {α : Type} (a b c : Option α) (v : α) (h : jsOr3 a b c = some v) :
    a = some v ∨ (a = none ∧ b = some v) ∨ (a = none ∧ b = none ∧ c = some v) := by
  cases a <;> cases b <;> cases c <;> simp_all [jsOr3]

/-- The muxed selection is empty exactly when the muxed filter is empty. -/
theorem selectVideoFormat_eq_none_iff (q : Str) (fmts : List MediaVariant) :
    selectVideoFormat q fmts = none ↔ filterVideoAndAudio fmts = [] := by
  simp only [selectVideoFormat, jsOr3_eq_none_iff]
  constructor
  · rintro ⟨-, -, h3⟩
    exact (head?_eq_none_iff _).mp h3
  · intro h
    rw [h]
    simp

/-- Any variant returned by the muxed selection belongs to the muxed filter. -/
theorem selectVideoFormat_mem (q : Str) (fmts : List MediaVariant) (v : MediaVariant)
    (h : selectVideoFormat q fmts = some v) : v ∈ filterVideoAndAudio fmts := by
  simp only [selectVideoFormat] at h
  rcases jsOr3_eq_some _ _ _ _ h with h1 | ⟨-, h2⟩ | ⟨-, -, h3⟩
  · obtain ⟨l1, l2, hd, -, -⟩ := find?_first _ _ _ h1
    rw [hd]
    simp
  · obtain ⟨l1, l2, hd, -, -⟩ := find?_first _ _ _ h2
    rw [hd]
    simp
  · cases hl : filterVideoAndAudio fmts with
    | nil => rw [hl] at h3; cases h3
    | cons a as =>
      rw [hl] at h3
      simp only [List.head?, Option.some.injEq] at h3
      rw [← h3]
      exact List.mem_cons_self a as

/-- C2: every input string failing the accepted YouTube URL shapes is rejected
by the POST handlers with the invalid-URL 400 envelope (an empty string is
rejected with the missing-URL 400 envelope earlier); every string passing
validation yields, under the permissive embed-aware extraction pattern of the
transcription handler, an identifier of length at least 6; and whenever an
extraction pattern fails despite validation passing, which can happen in
noembedFallback whose pattern lacks the embed/ marker, the explicit
could-not-extract branch is taken. -/
theorem c2_validation_and_extraction :
    (∀ env url lang, url ≠ [] → ytRegexTest url = false →
      transcribePost env (some url) lang = Resp.error invalidUrlMsg 400) ∧
    (∀ env url, url ≠ [] → ytRegexTest url = false →
      downloadPost env (some url) = Resp.error invalidUrlMsg 400) ∧
    (∀ url, ytRegexTest url = true →
      ∃ id, extractIdWith markersEmbed url = some id ∧ 6 ≤ id.length) ∧
    (∀ env u, extractIdWith markersNoEmbed u = none →
      noembedFallback env u = Resp.error idExtractMsg 500) := by
  refine ⟨?_, ?_, extract_of_valid, ?_⟩
  · intro env url lang hne hv
    simp [transcribePost, hne, hv]
  · intro env url hne hv
    simp [downloadPost, hne, hv]
  · intro env u hx
    simp [noembedFallback, hx]

/-- C2 witness: a non-YouTube URL is rejected by the transcription handler; a
validated embed URL yields an identifier under the embed-aware pattern; the
same embed URL makes the noembedFallback pattern fail, taking its explicit
could-not-extract branch. -/
theorem c2_validation_and_extraction_witness :
    transcribePost { hasKey := false, whisper := demoWhisperEnvBase }
        (some ("https://vimeo.com/abcdef".toList)) none = Resp.error invalidUrlMsg 400 ∧
    (∃ id, extractIdWith markersEmbed ("https://www.youtube.com/embed/abc123".toList)
      = some id ∧ 6 ≤ id.length) ∧
    noembedFallback c1PostEnv ("https://www.youtube.com/embed/abc123".toList)
      = Resp.error idExtractMsg 500 :=
  ⟨c2_validation_and_extraction.1 _ _ _ (by decide) (by decide),
   c2_validation_and_extraction.2.2.1 _ (by decide),
   c2_validation_and_extraction.2.2.2 _ _ (by decide)⟩

/-- Every Object.prototype key is absent from the quality table, so its
lookup falls through to the prototype chain. -/
theorem protoKeys_lookup_none : ∀ q ∈ protoKeys, qualityPairs.lookup q = none := by
  decide

/-- A key reaching an inherited Object.prototype property yields that
inherited value as the target. -/
theorem qualityTarget_of_proto (q : Str) (hq : q ∈ protoKeys) :
    qualityTarget q = JsTarget.protoObj q := by
  unfold qualityTarget
  rw [protoKeys_lookup_none q hq, if_pos hq]

/-- An inherited non-string target matches no quality label. -/
theorem labelMatches_protoObj (n : Str) (lbl : Option Str) :
    labelMatches (JsTarget.protoObj n) lbl = false := by
  cases lbl <;> rfl

/-- C6 counterexample: the string constructor is outside the fixed
vocabulary, yet the lookup does not map it to 1080p: qualityMap[quality]
reaches the constructor property inherited from Object.prototype, a truthy
non-string, so the || default never applies. -/
theorem c6_counterexample :
    ("constructor".toList) ∉ ["4K".toList, "2K".toList, "1080p".toList,
      "720p".toList, "480p".toList, "360p".toList] ∧
    qualityTarget ("constructor".toList) ≠ JsTarget.str ("1080p".toList) ∧
    qualityTarget ("constructor".toList)
      = JsTarget.protoObj ("constructor".toList) := by
  refine ⟨by decide, by decide, by decide⟩

/-- C6 (amended): each tier of the fixed vocabulary maps to its documented
canonical label; every string outside the vocabulary that does not name an
Object.prototype property maps to 1080p; a string naming an Object.prototype
property instead yields the truthy inherited value, which is not a string
and matches no quality label. -/
theorem c6_amended_quality_target :
    qualityTarget ("4K".toList) = JsTarget.str ("2160p".toList) ∧
    qualityTarget ("2K".toList) = JsTarget.str ("1440p".toList) ∧
    qualityTarget ("1080p".toList) = JsTarget.str ("1080p".toList) ∧
    qualityTarget ("720p".toList) = JsTarget.str ("720p".toList) ∧
    qualityTarget ("480p".toList) = JsTarget.str ("480p".toList) ∧
    qualityTarget ("360p".toList) = JsTarget.str ("360p".toList) ∧
    (∀ q, q ∉ ["4K".toList, "2K".toList, "1080p".toList, "720p".toList,
        "480p".toList, "360p".toList] → q ∉ protoKeys →
      qualityTarget q = JsTarget.str ("1080p".toList)) ∧
    (∀ q, q ∈ protoKeys → qualityTarget q = JsTarget.protoObj q ∧
      ∀ lbl, labelMatches (qualityTarget q) lbl = false) := by
  refine ⟨by decide, by decide, by decide, by decide, by decide, by decide, ?_, ?_⟩
  · intro q hq hp
    simp only [List.mem_cons, List.not_mem_nil, or_false, not_or] at hq
    obtain ⟨h1, h2, h3, h4, h5, h6⟩ := hq
    have hnone : qualityPairs.lookup q = none := by
      apply lookup_eq_none_of_not_mem
      intro p hp'
      simp only [qualityPairs, List.mem_cons, List.not_mem_nil, or_false] at hp'
      rcases hp' with rfl | rfl | rfl | rfl | rfl | rfl
      · exact h1
      · exact h2
      · exact h3
      · exact h4
      · exact h5
      · exact h6
    unfold qualityTarget
    rw [hnone, if_neg hp]
  · intro q hq
    refine ⟨qualityTarget_of_proto q hq, ?_⟩
    intro lbl
    rw [qualityTarget_of_proto q hq]
    exact labelMatches_protoObj q lbl

/-- C6 witness for the amended claim: an ordinary unrecognized tier maps to
1080p, while toString reaches the inherited method and matches no label. -/
theorem c6_amended_quality_target_witness :
    qualityTarget ("ultra".toList) = JsTarget.str ("1080p".toList) ∧
    qualityTarget ("toString".toList)
      = JsTarget.protoObj ("toString".toList) ∧
    labelMatches (qualityTarget ("toString".toList))
      (some ("1080p".toList)) = false :=
  ⟨c6_amended_quality_target.2.2.2.2.2.2.1 ("ultra".toList) (by decide) (by decide),
   (c6_amended_quality_target.2.2.2.2.2.2.2 ("toString".toList) (by decide)).1,
   (c6_amended_quality_target.2.2.2.2.2.2.2 ("toString".toList) (by decide)).2
     (some ("1080p".toList))⟩

/-- C5 counterexample: at quality constructor, the claim's mapped target is
1080p and the filtered list (a muxed 720p variant then a muxed 1080p
variant) contains a first mapped-target match, but the program's
strict-equality target is the inherited constructor function, which matches
no label, so the program selects the 720p variant instead of the first
mapped-target match the claim requires. -/
theorem c5_counterexample :
    selectVideoFormat ("constructor".toList) c5ProtoFmts = some demoV720 ∧
    specQualityLabel ("constructor".toList) = "1080p".toList ∧
    (filterVideoAndAudio c5ProtoFmts).find?
        (fun f => f.qualityLabel == some (specQualityLabel ("constructor".toList)))
      = some demoV1080Muxed ∧
    demoV720 ≠ demoV1080Muxed := by
  refine ⟨by decide, by decide, by decide, by decide⟩

/-- C5 (amended): for video-format requests the selection first filters to
variants carrying both video and audio; on the filtered list it returns the
first variant whose quality label strictly equals the looked-up target (the
documented label for vocabulary tiers, 1080p for other strings that do not
name an Object.prototype property, and a non-string inherited value that
matches no label for strings that do), else the first variant labeled 720p,
else the first variant in list order; when the filtered list is empty the
GET handler responds with the no-suitable-format 404 envelope. -/
theorem c5_amended_video_selection :
    ∀ q fmts,
      (selectVideoFormat q fmts = none ↔ filterVideoAndAudio fmts = []) ∧
      (∀ env u fo qo info, u ≠ [] → env.ytdlAvailable = true →
        env.getInfo = Except.ok info → jsOrStr fo ("mp4".toList) ≠ "mp3".toList →
        filterVideoAndAudio info.formats = [] →
        routeGet env (some u) fo qo = (Resp.error noFormatMsg 404, [Ev.getInfo])) ∧
      (q ∈ protoKeys → ∀ lbl, labelMatches (qualityTarget q) lbl = false) ∧
      (∀ v, selectVideoFormat q fmts = some v →
        FirstSuch (fun f => labelMatches (qualityTarget q) f.qualityLabel)
          (filterVideoAndAudio fmts) v ∨
        ((∀ w ∈ filterVideoAndAudio fmts,
            labelMatches (qualityTarget q) w.qualityLabel = false) ∧
          FirstSuch (fun f => f.qualityLabel == some ("720p".toList))
            (filterVideoAndAudio fmts) v) ∨
        ((∀ w ∈ filterVideoAndAudio fmts,
            labelMatches (qualityTarget q) w.qualityLabel = false ∧
            (w.qualityLabel == some ("720p".toList)) = false) ∧
          (filterVideoAndAudio fmts).head? = some v)) := by
  intro q fmts
  refine ⟨selectVideoFormat_eq_none_iff q fmts, ?_, ?_, ?_⟩
  · intro env u fo qo info hne hav hinfo hfmt hfil
    have hsel : selectVideoFormat (jsOrStr qo ("1080p".toList)) info.formats = none :=
      (selectVideoFormat_eq_none_iff _ _).mpr hfil
    unfold routeGet
    dsimp only
    rw [if_neg hne, if_neg (by simp [hav]), hinfo]
    dsimp only
    rw [if_neg hfmt, hsel]
  · intro hq lbl
    rw [qualityTarget_of_proto q hq]
    exact labelMatches_protoObj q lbl
  · intro v hv
    simp only [selectVideoFormat] at hv
    rcases jsOr3_eq_some _ _ _ _ hv with h1 | ⟨h1, h2⟩ | ⟨h1, h2, h3⟩
    · exact Or.inl (find?_first _ _ _ h1)
    · exact Or.inr (Or.inl ⟨find?_none _ _ h1, find?_first _ _ _ h2⟩)
    · refine Or.inr (Or.inr ⟨?_, h3⟩)
      intro w hw
      exact ⟨find?_none _ _ h1 w hw, find?_none _ _ h2 w hw⟩

/-- C5 witness for the amended claim: an empty muxed filter produces the 404
envelope; at the prototype key constructor the target matches no label; and
on the demo list with target 2160p the selection is the first 720p
variant. -/
theorem c5_amended_video_selection_witness :
    routeGet demoGetEnvNoMuxed (some ("https://youtu.be/abc123".toList)) none none
      = (Resp.error noFormatMsg 404, [Ev.getInfo]) ∧
    labelMatches (qualityTarget ("constructor".toList)) (some ("1080p".toList)) = false ∧
    (FirstSuch (fun f => labelMatches (qualityTarget ("4K".toList)) f.qualityLabel)
        (filterVideoAndAudio demoFmts) demoV720 ∨
      ((∀ w ∈ filterVideoAndAudio demoFmts,
          labelMatches (qualityTarget ("4K".toList)) w.qualityLabel = false) ∧
        FirstSuch (fun f => f.qualityLabel == some ("720p".toList))
          (filterVideoAndAudio demoFmts) demoV720) ∨
      ((∀ w ∈ filterVideoAndAudio demoFmts,
          labelMatches (qualityTarget ("4K".toList)) w.qualityLabel = false ∧
          (w.qualityLabel == some ("720p".toList)) = false) ∧
        (filterVideoAndAudio demoFmts).head? = some demoV720)) :=
  ⟨(c5_amended_video_selection ([] : Str) []).2.1 demoGetEnvNoMuxed _ none none _
      (by decide) rfl rfl (by decide) (by decide),
   (c5_amended_video_selection ("constructor".toList) c5ProtoFmts).2.2.1
     (by decide) (some ("1080p".toList)),
   (c5_amended_video_selection ("4K".toList) demoFmts).2.2.2 demoV720 (by decide)⟩

/-- C8: the format selector is deterministic (two runs on the same inputs
agree); an audio-only selection always returns an audio-only variant, namely
the first variant attaining the maximal bitrate among the audio-only
candidates, ties broken by provider order; and a video selection always
returns a variant carrying both video and audio. -/
theorem c8_selector_determinism :
    ∀ fmts q,
      (selectAudioFormat fmts = selectAudioFormat fmts ∧
        selectVideoFormat q fmts = selectVideoFormat q fmts) ∧
      (∀ v, selectAudioFormat fmts = some v →
        v.hasAudio = true ∧ v.hasVideo = false ∧
        (∀ w ∈ filterAudioOnly fmts, bitrateOf w ≤ bitrateOf v) ∧
        ∃ l1 l2, filterAudioOnly fmts = l1 ++ v :: l2 ∧
          ∀ w ∈ l1, bitrateOf w < bitrateOf v) ∧
      (∀ v, selectVideoFormat q fmts = some v →
        v.hasVideo = true ∧ v.hasAudio = true) := by
  intro fmts q
  refine ⟨⟨rfl, rfl⟩, ?_, ?_⟩
  · intro v hv
    have hfm : firstMaxBy bitrateOf (filterAudioOnly fmts) = some v := by
      rw [← head?_sortDescBy]
      exact hv
    obtain ⟨⟨l1, l2, hdecomp, hstrict⟩, hmax⟩ := firstMaxBy_spec _ _ _ hfm
    have hmem : v ∈ filterAudioOnly fmts := by
      rw [hdecomp]
      simp
    have hprop := (List.mem_filter.mp hmem).2
    simp only [Bool.and_eq_true, Bool.not_eq_true'] at hprop
    exact ⟨hprop.1, hprop.2, hmax, l1, l2, hdecomp, hstrict⟩
  · intro v hv
    have hmem := selectVideoFormat_mem q fmts v hv
    have hprop := (List.mem_filter.mp hmem).2
    simp only [Bool.and_eq_true] at hprop
    exact hprop

/-- C8 witness: on the demo list the audio selection returns the earlier of
the two 128 kbps audio-only variants, which is audio-only and maximal. -/
theorem c8_selector_determinism_witness :
    demoA128.hasAudio = true ∧ demoA128.hasVideo = false ∧
    (∀ w ∈ filterAudioOnly demoFmts, bitrateOf w ≤ bitrateOf demoA128) ∧
    ∃ l1 l2, filterAudioOnly demoFmts = l1 ++ demoA128 :: l2 ∧
      ∀ w ∈ l1, bitrateOf w < bitrateOf demoA128 :=
  (c8_selector_determinism demoFmts ("1080p".toList)).2.1 demoA128 (by decide)

/-- C3: in the credentialed transcription path with the library loaded, a
provider-reported duration strictly above 1800 seconds terminates the
operation with the too-long 400 envelope before the audio download or the
transcription provider is invoked; a duration of exactly 1800 never produces
the too-long envelope. -/
theorem c3_duration_guard :
    (∀ env lang info, env.importYtdl = Except.ok () → env.getInfo = Except.ok info →
      1800 < info.lengthSeconds.getD 0 →
      (whisperTranscribe env lang).outcome = Except.ok (Resp.error tooLongMsg 400) ∧
      Ev.download ∉ (whisperTranscribe env lang).trace ∧
      Ev.transcribe ∉ (whisperTranscribe env lang).trace) ∧
    (∀ env lang info, env.getInfo = Except.ok info →
      info.lengthSeconds.getD 0 = 1800 →
      (whisperTranscribe env lang).outcome ≠ Except.ok (Resp.error tooLongMsg 400)) := by
  constructor
  · intro env lang info himp hinfo hdur
    unfold whisperTranscribe whisperBody
    rw [himp, hinfo]
    dsimp only
    rw [if_pos hdur]
    refine ⟨rfl, ?_, ?_⟩ <;> decide
  · intro env lang info hinfo hdur
    unfold whisperTranscribe whisperBody
    cases himp : env.importYtdl with
    | error e =>
      dsimp only
      intro hcontra
      exact captionFallback_ne_400 env.captionEnv tooLongMsg (Except.ok.inj hcontra)
    | ok _ =>
      rw [hinfo]
      dsimp only
      rw [hdur, if_neg (by omega)]
      cases hsel : selectAudioFormat info.formats with
      | none =>
        dsimp only
        intro hcontra
        exact captionFallback_ne_400 env.captionEnv tooLongMsg (Except.ok.inj hcontra)
      | some best =>
        cases hdl : env.downloadAudio with
        | error e => simp
        | ok bytes =>
          cases hoc : env.openaiCreate with
          | error e => simp
          | ok t => simp

/-- C3 witness: duration 1801 yields the too-long 400 envelope with no
download or transcription event; duration exactly 1800 proceeds past the
guard and never yields the too-long envelope. -/
theorem c3_duration_guard_witness :
    ((whisperTranscribe c3LongEnv ("auto".toList)).outcome
        = Except.ok (Resp.error tooLongMsg 400) ∧
      Ev.download ∉ (whisperTranscribe c3LongEnv ("auto".toList)).trace ∧
      Ev.transcribe ∉ (whisperTranscribe c3LongEnv ("auto".toList)).trace) ∧
    (whisperTranscribe c3EdgeEnv ("auto".toList)).outcome
      ≠ Except.ok (Resp.error tooLongMsg 400) :=
  ⟨c3_duration_guard.1 c3LongEnv ("auto".toList) c3LongInfo rfl rfl (by decide),
   c3_duration_guard.2 c3EdgeEnv ("auto".toList) c3EdgeInfo rfl (by decide)⟩

/-- C4: the temp-file deletion of the transcription operation is attempted as
the final step on every control-flow exit (the trace always ends with the
unlink event); the outcome returned is exactly the outcome of the try block,
so the cleanup never replaces the primary result or error; the outcome does
not depend on whether the deletion succeeds; and when the deletion succeeds
no file is left behind. -/
theorem c4_cleanup_every_exit :
    ∀ env lang,
      (whisperTranscribe env lang).trace.getLast? = some Ev.unlink ∧
      (whisperTranscribe env lang).outcome = (whisperBody env lang).1 ∧
      (∀ b, (whisperTranscribe { env with unlinkOk := b } lang).outcome =
        (whisperTranscribe env lang).outcome) ∧
      (env.unlinkOk = true → (whisperTranscribe env lang).fileLeft = false) := by
  intro env lang
  refine ⟨?_, rfl, ?_, ?_⟩
  · simp [whisperTranscribe]
  · intro b
    have hbody : whisperBody { env with unlinkOk := b } lang = whisperBody env lang := by
      cases env
      rfl
    simp [whisperTranscribe, hbody]
  · intro h
    simp [whisperTranscribe, h]

/-- C4 witness: on a concrete environment the outcome is independent of the
unlink success and the successful unlink leaves no file. -/
theorem c4_cleanup_every_exit_witness :
    (whisperTranscribe demoWhisperEnvBase ("auto".toList)).trace.getLast?
      = some Ev.unlink ∧
    (whisperTranscribe { demoWhisperEnvBase with unlinkOk := false }
        ("auto".toList)).outcome
      = (whisperTranscribe demoWhisperEnvBase ("auto".toList)).outcome ∧
    (whisperTranscribe demoWhisperEnvBase ("auto".toList)).fileLeft = false :=
  ⟨(c4_cleanup_every_exit demoWhisperEnvBase ("auto".toList)).1,
   (c4_cleanup_every_exit demoWhisperEnvBase ("auto".toList)).2.2.1 false,
   (c4_cleanup_every_exit demoWhisperEnvBase ("auto".toList)).2.2.2 rfl⟩

/-- C7: with the library loaded and provider info available, a missing or
empty caption track list yields the no-captions 404 envelope; a non-empty
track list always selects a track, namely the first with language code
exactly en, else the first whose language code starts with en, else the first
track in list order; if the fetched track yields zero non-trivial segments
the handler responds no-captions 404; and on success the envelope has source
youtube-captions, the selected track's language, and a transcript equal to
the segment texts joined by single spaces in list order. -/
theorem c7_caption_selection :
    ∀ env info, env.importYtdl = Except.ok () → env.getInfo = Except.ok info →
      (info.captionTracks = none → captionFallback env = Resp.error noCaptionsMsg 404) ∧
      (info.captionTracks = some [] → captionFallback env = Resp.error noCaptionsMsg 404) ∧
      (∀ ts, info.captionTracks = some ts → ts ≠ [] → (selectTrack ts).isSome = true) ∧
      (∀ ts track, info.captionTracks = some ts → selectTrack ts = some track →
        (FirstSuch (fun t => t.languageCode == "en".toList) ts track ∨
          ((∀ w ∈ ts, (w.languageCode == "en".toList) = false) ∧
            FirstSuch (fun t => ("en".toList).isPrefixOf t.languageCode) ts track) ∨
          ((∀ w ∈ ts, (w.languageCode == "en".toList) = false ∧
              ("en".toList).isPrefixOf w.languageCode = false) ∧
            ts.head? = some track)) ∧
        ∀ events, env.fetchJson (track.baseUrl ++ "&fmt=json3".toList) = Except.ok events →
          (processEvents (events.getD []) = [] →
            captionFallback env = Resp.error noCaptionsMsg 404) ∧
          (processEvents (events.getD []) ≠ [] →
            captionFallback env = Resp.transcript
              { title := info.title
                transcript := some (List.intercalate (" ".toList)
                  ((processEvents (events.getD [])).map Segment.text))
                segments := processEvents (events.getD [])
                language := track.languageCode
                duration := none
                wordCount := none
                source := "youtube-captions".toList
                note := some captionNote })) := by
  intro env info himp hinfo
  refine ⟨?_, ?_, ?_, ?_⟩
  · intro htr
    unfold captionFallback
    rw [himp, hinfo]
    dsimp only
    rw [htr]
  · intro htr
    unfold captionFallback
    rw [himp, hinfo]
    dsimp only
    rw [htr]
    rfl
  · intro ts htr hne
    unfold selectTrack
    rcases hf1 : ts.find? (fun t => t.languageCode == "en".toList) with - | t1
    · rw [hf1]
      rcases hf2 : ts.find? (fun t => ("en".toList).isPrefixOf t.languageCode) with - | t2
      · rw [hf2]
        cases ts with
        | nil => exact absurd rfl hne
        | cons a as => rfl
      · rw [hf2]
        rfl
    · rw [hf1]
      rfl
  · intro ts track htr hsel
    constructor
    · rcases jsOr3_eq_some _ _ _ _ hsel with h1 | ⟨h1, h2⟩ | ⟨h1, h2, h3⟩
      · exact Or.inl (find?_first _ _ _ h1)
      · exact Or.inr (Or.inl ⟨find?_none _ _ h1, find?_first _ _ _ h2⟩)
      · refine Or.inr (Or.inr ⟨?_, h3⟩)
        intro w hw
        exact ⟨find?_none _ _ h1 w hw, find?_none _ _ h2 w hw⟩
    · intro events hfetch
      constructor
      · intro hempty
        unfold captionFallback
        rw [himp, hinfo]
        dsimp only
        rw [htr]
        dsimp only
        rw [hsel]
        dsimp only
        rw [hfetch]
        dsimp only
        rw [hempty]
        rfl
      · intro hnonempty
        unfold captionFallback
        rw [himp, hinfo]
        dsimp only
        rw [htr]
        dsimp only
        rw [hsel]
        dsimp only
        rw [hfetch]
        dsimp only
        rw [if_pos (List.length_pos.mpr hnonempty)]

/-- C7 witness: a provider returning one English caption track whose fetch
yields two non-trivial segments produces the youtube-captions envelope with
the space-joined transcript. -/
theorem c7_caption_selection_witness :
    captionFallback c7CapEnv = Resp.transcript
      { title := ("T".toList)
        transcript := some ("hello world".toList)
        segments := [{ start := 0, stop := 1000, text := ("hello".toList) },
          { start := 1000, stop := 2000, text := ("world".toList) }]
        language := ("en".toList)
        duration := none
        wordCount := none
        source := "youtube-captions".toList
        note := some captionNote } := by
  have h := ((c7_caption_selection c7CapEnv
      { title := ("T".toList), captionTracks := some [c7Track] } rfl rfl).2.2.2
      [c7Track] c7Track rfl (by decide)).2 (some [c7Event1, c7Event2]) rfl
  have h2 := h.2 (by decide)
  rw [h2]
  decide

/-- C9 counterexample: for the transcript text consisting of a, two spaces
and b, the code computes wordCount 3 through text.split of a single space
(empty fields counted), while the number of whitespace-delimited tokens is 2,
so the claimed equality fails on this input. -/
theorem c9_counterexample :
    respWordCount (whisperTranscribe c9Env ("auto".toList)).outcome = some 3 ∧
    wsTokenCount ("a  b".toList) = 2 ∧ (3 : Nat) ≠ 2 := by
  refine ⟨?_, by decide, by decide⟩
  decide

/-- C9 (amended): whenever the whisper success envelope is produced, its
wordCount equals the number of fields of the transcript split at every single
space character, that is one more than the number of space characters of the
text, and 0 when the provider supplies no text; in particular an empty
transcript yields 1 and runs of whitespace contribute one extra field per
space character. -/
theorem c9_amended_word_count :
    ∀ env lang info t bytes, env.importYtdl = Except.ok () →
      env.getInfo = Except.ok info →
      info.lengthSeconds.getD 0 ≤ 1800 →
      (selectAudioFormat info.formats).isSome = true →
      env.downloadAudio = Except.ok bytes →
      env.openaiCreate = Except.ok t →
      respWordCount (whisperTranscribe env lang).outcome =
        some (t.text.elim 0 (fun s => s.count ' ' + 1)) := by
  intro env lang info t bytes himp hinfo hdur hsel hdl hoc
  unfold whisperTranscribe whisperBody
  rw [himp, hinfo]
  dsimp only
  rw [if_neg (by omega)]
  cases hselv : selectAudioFormat info.formats with
  | none => rw [hselv] at hsel; cases hsel
  | some best =>
    dsimp only
    rw [hdl]
    dsimp only
    rw [hoc]
    dsimp only
    rw [respWordCount]
    dsimp only [whisperEnvelope]
    rw [jsWordCount_eq]

/-- C9 witness for the amended claim: a transcript with one single space
yields wordCount 2. -/
theorem c9_amended_word_count_witness :
    respWordCount (whisperTranscribe c9EnvB ("auto".toList)).outcome = some 2 := by
  have h := c9_amended_word_count c9EnvB ("auto".toList)
    { title := ("T".toList), lengthSeconds := some 100, formats := [demoA128] }
    c9TransB [] rfl rfl (by decide) (by decide) rfl rfl
  rw [h]
  decide

/-- C1 counterexample: inside the caption-lookup tier the failure to load the
media-extraction library is caught by the tier's own catch handler and
surfaced to the caller as a 500 error envelope, so a capability-unavailable
condition does reach the caller as an error envelope. -/
theorem c1_counterexample :
    captionFallback c1CapEnv
      = Resp.error (capErrMsg ("Cannot find module".toList)) 500 := rfl

/-- C1 (amended): at every tier boundary a capability-unavailable condition
triggers the next fallback tier instead of an error envelope: POST /download
proceeds to the noembed lookup when the library import fails, GET /download
redirects to the third-party tool, the transcription operation proceeds to
caption lookup when the credential is absent, and the credentialed path
proceeds to caption lookup when the library import fails; however inside the
terminal caption-lookup tier itself a library import failure is surfaced as a
500 error envelope (see the counterexample). -/
theorem c1_amended_fallback_tiers :
    (∀ env u, ytRegexTest u = true → env.ytdlAvailable = false →
      downloadPost env (some u) = noembedFallback env u) ∧
    (∀ env u fo qo, u ≠ [] → env.ytdlAvailable = false →
      routeGet env (some u) fo qo = (Resp.redirect (cobaltUrl u), [])) ∧
    (∀ env u lang vid, env.hasKey = false → ytRegexTest u = true →
      extractIdWith markersEmbed u = some vid →
      transcribePost env (some u) lang = captionFallback env.whisper.captionEnv) ∧
    (∀ env lang e, env.importYtdl = Except.error e →
      (whisperTranscribe env lang).outcome
        = Except.ok (captionFallback env.captionEnv)) := by
  refine ⟨?_, ?_, ?_, ?_⟩
  · intro env u hv ha
    have hne : u ≠ [] := by
      intro h
      rw [h] at hv
      exact absurd hv (by decide)
    unfold downloadPost
    dsimp only
    rw [if_neg hne, if_neg (by simp [hv]), if_pos ha]
  · intro env u fo qo hne ha
    unfold routeGet
    dsimp only
    rw [if_neg hne, if_pos ha]
  · intro env u lang vid hk hv hx
    have hne : u ≠ [] := by
      intro h
      rw [h] at hv
      exact absurd hv (by decide)
    unfold transcribePost
    dsimp only
    rw [if_neg hne, if_neg (by simp [hv]), hx]
    dsimp only
    rw [hk]
    rfl
  · intro env lang e himp
    unfold whisperTranscribe whisperBody
    rw [himp]

/-- C1 witness for the amended claim: with the library unavailable the POST
handler produces exactly the noembed tier result, and the credentialed
transcription path produces exactly the caption tier result. -/
theorem c1_amended_fallback_tiers_witness :
    downloadPost c1PostEnv (some ("https://youtu.be/abc123".toList))
      = noembedFallback c1PostEnv ("https://youtu.be/abc123".toList) ∧
    (whisperTranscribe c1WhisperEnv ("auto".toList)).outcome
      = Except.ok (captionFallback c1WhisperEnv.captionEnv) :=
  ⟨c1_amended_fallback_tiers.1 c1PostEnv _ (by decide) rfl,
   c1_amended_fallback_tiers.2.2.2 c1WhisperEnv ("auto".toList)
     ("Cannot find module".toList) rfl⟩

/-- C10 (implicit): the GET /download streaming handler of route.js performs
no YouTube URL-shape validation: a missing (or empty) url parameter is the
only way to get a 400 response; for every non-empty url value, however
malformed, no 400 envelope is ever produced, the provider info call is
reached whenever the library is available, and a provider failure redirects
to the third-party tool; by contrast the companion GET handler variant
rejects any url failing its 8-character pattern with the invalid-URL 400
envelope before calling any provider. -/
theorem c10_get_no_validation :
    (∀ env fo qo, routeGet env none fo qo = (Resp.error urlParamRequiredMsg 400, [])) ∧
    (∀ env u fo qo m, u ≠ [] → (routeGet env (some u) fo qo).1 ≠ Resp.error m 400) ∧
    (∀ env u fo qo, u ≠ [] → env.ytdlAvailable = true →
      Ev.getInfo ∈ (routeGet env (some u) fo qo).2) ∧
    (∀ env u fo qo e, u ≠ [] → env.ytdlAvailable = true →
      env.getInfo = Except.error e →
      routeGet env (some u) fo qo = (Resp.redirect (cobaltUrl u), [Ev.getInfo])) ∧
    (∀ env u fo qo, u ≠ [] → ytRegexTest8 u = false →
      part001Get env (some u) fo qo = (Resp.error invalidUrlMsg 400, [])) := by
  refine ⟨?_, ?_, ?_, ?_, ?_⟩
  · intro env fo qo
    rfl
  · intro env u fo qo m hne
    unfold routeGet
    dsimp only
    rw [if_neg hne]
    cases ha : env.ytdlAvailable with
    | false => simp
    | true =>
      rw [if_neg (by simp)]
      cases hgi : env.getInfo with
      | error e => simp
      | ok info =>
        dsimp only
        split
        · simp
        · split
          · simp
          · simp
  · intro env u fo qo hne hav
    unfold routeGet
    dsimp only
    rw [if_neg hne, if_neg (by simp [hav])]
    cases hgi : env.getInfo with
    | error e => simp
    | ok info =>
      dsimp only
      split
      · simp
      · split
        · simp
        · simp
  · intro env u fo qo e hne hav hgi
    unfold routeGet
    dsimp only
    rw [if_neg hne, if_neg (by simp [hav]), hgi]
  · intro env u fo qo hne hv8
    unfold part001Get
    dsimp only
    rw [if_neg hne, if_pos (by simp [hv8])]

/-- C10 witness: a URL with a 7-character identifier passes the 6-character
validation yet fails the 8-character one; route.js GET with a failing
provider redirects it to the third-party tool, while the companion variant
rejects it with the invalid-URL 400 envelope. -/
theorem c10_get_no_validation_witness :
    ytRegexTest ("https://youtu.be/abc1234".toList) = true ∧
    routeGet c10Env (some ("https://youtu.be/abc1234".toList)) none none
      = (Resp.redirect (cobaltUrl ("https://youtu.be/abc1234".toList)), [Ev.getInfo]) ∧
    part001Get c10Env (some ("https://youtu.be/abc1234".toList)) none none
      = (Resp.error invalidUrlMsg 400, []) :=
  ⟨by decide,
   c10_get_no_validation.2.2.2.1 c10Env _ none none ("boom".toList) (by decide) rfl rfl,
   c10_get_no_validation.2.2.2.2 c10Env _ none none (by decide) (by decide)⟩
